import Mathlib

/-!
Shallow embedding of the mgtoolkit metagraph library (mgtoolkit/library.py,
mgtoolkit/properties.py) and verification of its specification claims.

Modelling conventions, fixed once and used throughout:

* Metagraph elements are strings (`Elem := String`), as in the library's
  intended use; Python sets of elements are `Finset String`, whose structural
  equality is extensional, exactly like Python `set.__eq__`.
* A Python `set` that the code enumerates (`list(s)`, `for x in s`) is
  embedded as a `List Elem` fixing the enumeration order of that set object,
  which CPython keeps stable within a run; set operations on it go through
  `List.toFinset`.
* `Edge`, `Triple`, `Node` objects define no `__eq__`, so Python `in` /
  `not in` / `==` on them compares object identity.  The embedding uses
  structural equality instead; this coincides with identity whenever distinct
  objects are structurally distinct, which holds in every concrete
  development below and does not affect the stated equalities elsewhere
  (both sides of each general theorem run the same embedded computation).
* Raising code is embedded in `Except PyError`; `MetagraphException(arg,
  resources[key])` evaluates the table lookup first, so a key missing from
  `properties.py` raises `KeyError` — `mgErr` reproduces exactly that.
-/

deriving instance DecidableEq for Except

namespace Mgtoolkit

abbrev Elem := String

abbrev ESet := Finset String

/-- Error values raisable by the embedded code: `MetagraphException(arg, msg)`
with the resolved message, Python `KeyError` (missing resource key), and
Python `TypeError` (e.g. subscripting a `Triple`). -/
inductive PyError where
  | metagraphException (arg : String) (message : String)
  | keyError (key : String)
  | typeError (message : String)
  deriving DecidableEq

/-- The resource table of mgtoolkit/properties.py, verbatim.  Keys the library
uses but the table does not define (`range_invalid`, `partition_invalid`,
`value_invalid`) resolve to `none`. -/
def resourcesTable : List (String × String) :=
  [("value_null", "value cannot be null or empty"),
   ("file_empty", "file is empty"),
   ("folder_empty", "folder is empty"),
   ("format_invalid", "provided format is invalid"),
   ("not_in_generating_set", "provided values are not in generating set"),
   ("value_not_found", "value not found"),
   ("no_overlap", "values do not overlap"),
   ("not_identical", "values are not identical"),
   ("not_a_subset", "not a subset of parent set"),
   ("arguments_invalid", "provided arguments are invalid"),
   ("structures_incompatible", "structures are not compatible"),
   ("value_out_of_bounds", "value is out of bounds")]

def resources (key : String) : Option String :=
  (resourcesTable.find? (fun p => p.1 = key)).map (fun p => p.2)

/-- `raise MetagraphException(arg, resources[key])`: the dictionary lookup is
evaluated before the exception is constructed, so a missing key raises
`KeyError` instead of the `MetagraphException`. -/
def mgErr (arg key : String) : PyError :=
  match resources key with
  | some msg => .metagraphException arg msg
  | none => .keyError key

/-- A metagraph edge (library.py `Edge`), after construction: the constructor
has already folded any attributes into the invertex and recorded them. -/
structure Edge where
  invertex : ESet
  outvertex : ESet
  attributes : Option (List String) := none
  label : Option String := none
  deriving DecidableEq

def edgeDefault : Edge := ⟨∅, ∅, none, none⟩

/-- `Edge.__init__`: rejects empty vertex sets and folds declared attributes
into the invertex. -/
def mkEdge (invertex outvertex : ESet) (attributes : Option (List String))
    (label : Option String) : Except PyError Edge :=
  if invertex = ∅ then .error (mgErr "invertex" "value_null")
  else if outvertex = ∅ then .error (mgErr "outvertex" "value_null")
  else match attributes with
    | none => .ok ⟨invertex, outvertex, none, label⟩
    | some attrs => .ok ⟨invertex ∪ attrs.toFinset, outvertex, some attrs, label⟩

/-- `MetagraphHelper.are_edges_equal`: invertex, outvertex and label, plus the
attribute sets when both edges carry attributes. -/
def areEdgesEqual (e1 e2 : Edge) : Bool :=
  match e1.attributes, e2.attributes with
  | some a1, some a2 =>
      decide (e1.invertex = e2.invertex) && decide (e1.outvertex = e2.outvertex) &&
      decide (a1.toFinset = a2.toFinset) && decide (e1.label = e2.label)
  | _, _ =>
      decide (e1.invertex = e2.invertex) && decide (e1.outvertex = e2.outvertex) &&
      decide (e1.label = e2.label)

/-- `MetagraphHelper.is_edge_in_list` on a flat list of edges (the recursive
nested-list walk visits the edges in list order and ors the results). -/
def isEdgeInListL (e : Edge) (es : List Edge) : Bool :=
  es.any (fun e2 => areEdgesEqual e e2)

/-- The `edges` component of a `Triple` is dynamically either a single `Edge`
object or a (possibly nested, in practice flat) list of edges. -/
inductive EdgesF where
  | single (e : Edge)
  | multi (es : List Edge)
  deriving DecidableEq

def EdgesF.toList : EdgesF → List Edge
  | .single e => [e]
  | .multi es => es

/-- A triple (library.py `Triple`): coinputs and cooutputs are sets or
`None`; Python distinguishes `None` from an empty set, hence `Option`. -/
structure Triple where
  coinputs : Option ESet
  cooutputs : Option ESet
  edges : EdgesF
  deriving DecidableEq

/-- `MetagraphHelper.are_triples_equal`.  The source iterates and takes
`len` of `triple.edges`; every embedded call site passes triples whose edges
component is a list (products of `multiply_triples`), where `toList` is the
identity, so the single-edge case (which would raise `TypeError` in Python)
does not arise. -/
def areTriplesEqual (t1 t2 : Triple) : Bool :=
  let l1 := t1.edges.toList
  let l2 := t2.edges.toList
  let edgeListMatch := l1.all (fun e => isEdgeInListL e l2) &&
                       l2.all (fun e => isEdgeInListL e l1)
  decide (t1.coinputs = t2.coinputs) && decide (t1.cooutputs = t2.cooutputs) &&
  decide (l1.length = l2.length) && edgeListMatch

/-- `MetagraphHelper.is_triple_in_list` on a flat list of triples. -/
def isTripleInList (t : Triple) (ts : List Triple) : Bool :=
  ts.any (fun t2 => areTriplesEqual t t2)

/-- `MetagraphHelper.are_nodes_equal` is element-set equality, and nodes are
carried by their element sets, so `is_node_in_list` is plain membership. -/
def isNodeInList (n : ESet) (ns : List ESet) : Bool :=
  ns.any (fun n2 => decide (n = n2))

/-- A value held inside an accumulated-closure matrix cell: `add_adjacency_
matrices` wraps the two combined cell lists into a fresh two-element list, so
cells of `A*` hold arbitrarily nested lists of triples. -/
inductive TT where
  | tri (t : Triple)
  | sub (l : List TT)

mutual

def TT.decEq : (a b : TT) → Decidable (a = b)
  | .tri t1, .tri t2 =>
      if h : t1 = t2 then .isTrue (by rw [h])
      else .isFalse (by intro hh; cases hh; exact h rfl)
  | .tri _, .sub _ => .isFalse (by intro h; cases h)
  | .sub _, .tri _ => .isFalse (by intro h; cases h)
  | .sub l1, .sub l2 =>
      match TT.decEqList l1 l2 with
      | .isTrue h => .isTrue (by rw [h])
      | .isFalse h => .isFalse (by intro hh; cases hh; exact h rfl)

def TT.decEqList : (l1 l2 : List TT) → Decidable (l1 = l2)
  | [], [] => .isTrue rfl
  | [], _ :: _ => .isFalse (by intro h; cases h)
  | _ :: _, [] => .isFalse (by intro h; cases h)
  | x :: xs, y :: ys =>
      match TT.decEq x y, TT.decEqList xs ys with
      | .isTrue h1, .isTrue h2 => .isTrue (by rw [h1, h2])
      | .isFalse h1, _ => .isFalse (by intro hh; injection hh with a b; exact h1 a)
      | _, .isFalse h2 => .isFalse (by intro hh; injection hh with a b; exact h2 b)

end

instance : DecidableEq TT := TT.decEq

/-- A cell of an adjacency-matrix power: `None` or a flat list of triples. -/
abbrev FlatCell := Option (List Triple)

abbrev FlatMat := List (List FlatCell)

/-- A cell of the accumulated closure matrix. -/
abbrev AccCell := Option (List TT)

abbrev AccMat := List (List AccCell)

def flatToAcc (m : FlatMat) : AccMat :=
  m.map (fun row => row.map (fun c => c.map (fun ts => ts.map TT.tri)))

/-- Metagraph state (library.py `Metagraph`): the generating set is stored
with its fixed enumeration order, nodes by their element sets, and `a_star`
is the closure cache (`self.a_star`, `None` until populated). -/
structure MG where
  generating_set : List Elem
  nodes : List ESet
  edges : List Edge
  a_star : Option AccMat
  deriving DecidableEq

/-- `Metagraph.__init__`: rejects a null/empty generating set. -/
def metagraphInit (gen : List Elem) : Except PyError MG :=
  if gen = [] then .error (mgErr "generator_set" "value_null")
  else .ok ⟨gen, [], [], none⟩

/-- `Metagraph.add_edge`: records invertex and outvertex as nodes (via the
`Node` constructor, which rejects empty sets), then appends the edge unless
an edge equal under `is_edge_in_list` is already held.  No generating-set
membership check is performed. -/
def addEdge (mg : MG) (e : Edge) : Except PyError MG :=
  if e.invertex = ∅ then .error (mgErr "element_set" "value_null")
  else if e.outvertex = ∅ then .error (mgErr "element_set" "value_null")
  else
    let nodes1 := if isNodeInList e.invertex mg.nodes then mg.nodes
                  else mg.nodes ++ [e.invertex]
    let nodes2 := if isNodeInList e.outvertex nodes1 then nodes1
                  else nodes1 ++ [e.outvertex]
    let edges1 := if isEdgeInListL e mg.edges then mg.edges else mg.edges ++ [e]
    .ok { mg with nodes := nodes2, edges := edges1 }

/-- `Metagraph.remove_edge`: removes the edge if present (`list.remove` drops
the first matching entry), otherwise leaves the metagraph unchanged. -/
def removeEdge (mg : MG) (e : Edge) : MG :=
  { mg with edges := mg.edges.erase e }

/-- The per-edge body of `Metagraph.add_edges_from`: node bookkeeping as in
`add_edge`, but the duplicate test on the edge list is plain membership
(`edge not in self.edges`). -/
def addEdgesFromLoop : MG → List Edge → Except PyError MG
  | mg, [] => .ok mg
  | mg, e :: rest =>
    if e.invertex = ∅ then .error (mgErr "element_set" "value_null")
    else if e.outvertex = ∅ then .error (mgErr "element_set" "value_null")
    else
      let nodes1 := if isNodeInList e.invertex mg.nodes then mg.nodes
                    else mg.nodes ++ [e.invertex]
      let nodes2 := if isNodeInList e.outvertex nodes1 then nodes1
                    else nodes1 ++ [e.outvertex]
      let edges1 := if mg.edges.contains e then mg.edges else mg.edges ++ [e]
      addEdgesFromLoop { mg with nodes := nodes2, edges := edges1 } rest

/-- `Metagraph.add_edges_from`: rejects a null/empty list, then adds each
edge in order. -/
def addEdgesFrom (mg : MG) (edge_list : List Edge) : Except PyError MG :=
  if edge_list = [] then .error (mgErr "edge_list" "value_null")
  else addEdgesFromLoop mg edge_list

/-- The edge loop of `Metagraph.add_metagraph`: both branches of the source
(identical or merely overlapping generating sets) run the same loop, calling
`add_edge` for each edge of the other metagraph not already held. -/
def addMetagraphLoop : MG → List Edge → Except PyError MG
  | mg, [] => .ok mg
  | mg, e :: rest =>
    if mg.edges.contains e then addMetagraphLoop mg rest
    else match addEdge mg e with
      | .error err => .error err
      | .ok mg2 => addMetagraphLoop mg2 rest

/-- `Metagraph.add_metagraph`. -/
def addMetagraph (mg mg2 : MG) : Except PyError MG :=
  if mg2.generating_set = [] then
    .error (mgErr "metagraph2.generating_set" "value_null")
  else addMetagraphLoop mg mg2.edges

/-- `Metagraph.get_edges`: all held edges whose invertex contains `xi` and
whose outvertex contains `xj` (single elements are tested for membership). -/
def getEdges (mg : MG) (xi xj : Elem) : List Edge :=
  mg.edges.filter (fun e => decide (xi ∈ e.invertex) && decide (xj ∈ e.outvertex))

/-- `Metagraph.get_coinputs`: the invertex minus `xi`, or `None` when `xi` is
not an input or nothing remains. -/
def getCoinputs (e : Edge) (xi : Elem) : Option ESet :=
  if xi ∈ e.invertex then
    let s := e.invertex.erase xi
    if s = ∅ then none else some s
  else none

/-- `Metagraph.get_cooutputs`: the outvertex minus `xj`, or `None` when `xj`
is not an output or nothing remains. -/
def getCooutputs (e : Edge) (xj : Elem) : Option ESet :=
  if xj ∈ e.outvertex then
    let s := e.outvertex.erase xj
    if s = ∅ then none else some s
  else none

/-- `Metagraph.adjacency_matrix`: cell `(i, j)` lists one triple per edge
carrying `x_i` to `x_j`, or is absent when no such edge exists.  The source's
duplicate test on freshly constructed `Triple` objects compares identity and
never fires, so the triples are appended unconditionally. -/
def adjacencyMatrix (mg : MG) : FlatMat :=
  let size := mg.generating_set.length
  (List.range size).map (fun i =>
    (List.range size).map (fun j =>
      let xi := mg.generating_set.getD i ""
      let xj := mg.generating_set.getD j ""
      let es := getEdges mg xi xj
      if es.isEmpty then none
      else some (es.map (fun e => ⟨getCoinputs e xi, getCooutputs e xj, .single e⟩))))

/-- `MetagraphHelper.multiply_triples` for present operands (cells hold no
`None` entries, so the source's `None`-operand early exit cannot fire). -/
def multiplyTriples (t1 t2 : Triple) (xi xj xk : Elem) : Triple :=
  let alpha0 : Option ESet :=
    match t2.coinputs, t1.coinputs with
    | none, c1 => c1
    | some c2, some c1 => some (c1 ∪ c2)
    | some c2, none => some c2
  let alpha : Option ESet :=
    match alpha0, t1.cooutputs with
    | some a, some co1 => some (a \ (insert xi co1))
    | some a, none => some (a \ {xi})
    | none, _ => none
  let beta : ESet :=
    match t2.cooutputs, t1.cooutputs with
    | none, none => ({xk} : ESet) \ {xj}
    | none, some c1 => (c1 ∪ {xk}) \ {xj}
    | some c2, none => (c2 ∪ {xk}) \ {xj}
    | some c2, some c1 => ((c1 ∪ c2) ∪ {xk}) \ {xj}
  let truncated : List Edge := t1.edges.toList
  let gamma : List Edge :=
    match t2.edges with
    | .single e2 => if truncated.contains e2 then truncated else truncated ++ [e2]
    | .multi l2 => l2
  ⟨alpha, some beta, .multi gamma⟩

/-- `MetagraphHelper.multiply_triple_lists`: `None` when either cell is
absent, otherwise all pairwise products de-duplicated by triple-equality. -/
def multiplyTripleLists (c1 c2 : FlatCell) (xi xj xk : Elem) :
    Option (List Triple) :=
  match c1, c2 with
  | some l1, some l2 =>
      some (l1.foldl (fun acc t1 =>
        l2.foldl (fun acc t2 =>
          let temp := multiplyTriples t1 t2 xi xj xk
          if isTripleInList temp acc then acc else acc ++ [temp]) acc) [])
  | _, _ => none

/-- `MetagraphHelper.multiply_components`: union over the intermediate index
`k`, de-duplicated by triple-equality; absent when nothing accumulates. -/
def multiplyComponents (m1 m2 : FlatMat) (gen : List Elem)
    (i j size : Nat) : FlatCell :=
  let result := (List.range size).foldl (fun acc k =>
    let aik := (m1.getD i []).getD k none
    let bkj := (m2.getD k []).getD j none
    match multiplyTripleLists aik bkj (gen.getD i "") (gen.getD j "")
        (gen.getD k "") with
    | none => acc
    | some temp =>
        temp.foldl (fun acc t =>
          if isTripleInList t acc then acc else acc ++ [t]) acc) []
  if result.isEmpty then none else some result

/-- `MetagraphHelper.multiply_adjacency_matrices`.  The source takes two
generator sets and raises unless they are identical; every embedded call
passes the metagraph's own generating set on both sides, so a single `gen`
parameter is used. -/
def multiplyAdjacencyMatrices (m1 m2 : FlatMat) (gen : List Elem) : FlatMat :=
  let size := gen.length
  (List.range size).map (fun i =>
    (List.range size).map (fun j => multiplyComponents m1 m2 gen i j size))

/-- Cell addition of `MetagraphHelper.add_adjacency_matrices` (identical
generating sets): an absent side yields the other, and two present cell
lists are wrapped into a fresh two-element list `[cell1, cell2]`. -/
def addCell : AccCell → AccCell → AccCell
  | none, c2 => c2
  | some l1, none => some l1
  | some l1, some l2 => some [TT.sub l1, TT.sub l2]

/-- `MetagraphHelper.add_adjacency_matrices`, identical-generating-set
branch, as invoked from `get_closure`. -/
def addAccMats (m1 m2 : AccMat) (size : Nat) : AccMat :=
  (List.range size).map (fun i =>
    (List.range size).map (fun j =>
      addCell ((m1.getD i []).getD j none) ((m2.getD i []).getD j none)))

/-- Python `==` on two power matrices, as tested by `get_closure`'s break
condition.  `Triple` defines no `__eq__`, so a cell holding a (fresh,
non-empty) triple list is never equal to any other cell: cell comparison
succeeds only for `None == None`. -/
def pyCellEq : FlatCell → FlatCell → Bool
  | none, none => true
  | _, _ => false

def pyEqMat (m1 m2 : FlatMat) : Bool :=
  decide (m1.length = m2.length) &&
  (m1.zip m2).all (fun rr =>
    decide (rr.1.length = rr.2.length) &&
    (rr.1.zip rr.2).all (fun cc => pyCellEq cc.1 cc.2))

/-- The loop of `Metagraph.get_closure`: for at most `|X|` iterations,
multiply the previous power by `A`, accumulate into `A*`, and break when the
new and previous powers compare equal under Python `==`. -/
def closureLoop (adj : FlatMat) (gen : List Elem) :
    Nat → FlatMat → AccMat → AccMat
  | 0, _, acc => acc
  | fuel + 1, cur, acc =>
    let nxt := multiplyAdjacencyMatrices cur adj gen
    let acc2 := addAccMats acc (flatToAcc nxt) gen.length
    if pyEqMat nxt cur then acc2 else closureLoop adj gen fuel nxt acc2

/-- `Metagraph.get_closure`. -/
def getClosure (mg : MG) : AccMat :=
  let adj := adjacencyMatrix mg
  closureLoop adj mg.generating_set mg.generating_set.length adj (flatToAcc adj)

/-- The power sequence of the closure recurrence: `A⁰ = A`,
`Aⁿ⁺¹ = Aⁿ · A`. -/
def aPow (mg : MG) : Nat → FlatMat
  | 0 => adjacencyMatrix mg
  | n + 1 => multiplyAdjacencyMatrices (aPow mg n) (adjacencyMatrix mg)
      mg.generating_set

/-- The accumulator sequence of the closure recurrence: `A*₀ = A`,
`A*ₙ₊₁ = A*ₙ + Aⁿ⁺¹`. -/
def aStarAcc (mg : MG) : Nat → AccMat
  | 0 => flatToAcc (adjacencyMatrix mg)
  | n + 1 => addAccMats (aStarAcc mg n) (flatToAcc (aPow mg (n + 1)))
      mg.generating_set.length

/-- The index at which `get_closure`'s loop stops: the first `n ≤ fuel` past
`k` with `Aⁿ` and `Aⁿ⁻¹` equal under Python `==`, else `k + fuel`. -/
def stopSearch (mg : MG) (k : Nat) : Nat → Nat
  | 0 => k
  | fuel + 1 =>
    if pyEqMat (aPow mg (k + 1)) (aPow mg k) then k + 1
    else stopSearch mg (k + 1) fuel

def stopIdx (mg : MG) : Nat := stopSearch mg 0 mg.generating_set.length

/-- `Metagraph.multiply_metagraph`.  `get_edges_in_matrix` subscripts each
triple as `triple[2]`, but `Triple` defines no `__getitem__`, so the first
non-absent cell of the product raises `TypeError`; an all-absent product
yields an empty edge list, and the metagraph's edges are cleared. -/
def multiplyMetagraph (mg mg2 : MG) : Except PyError MG :=
  if mg2.generating_set = [] then
    .error (mgErr "metagraph2.generator_set" "value_null")
  else if ¬ (mg.generating_set.toFinset \ mg2.generating_set.toFinset = ∅ ∧
             mg2.generating_set.toFinset \ mg.generating_set.toFinset = ∅) then
    .error (mgErr "generator_sets" "not_identical")
  else
    let m1 := adjacencyMatrix mg
    let m2 := adjacencyMatrix mg2
    let size := mg.generating_set.length
    let res := (List.range size).map (fun i =>
      (List.range size).map (fun j =>
        multiplyComponents m1 m2 mg.generating_set i j size))
    if res.any (fun row => row.any (fun c => !c.isNone)) then
      .error (.typeError "Triple object is not subscriptable")
    else .ok { mg with edges := [] }

mutual

/-- `MetagraphHelper.get_triples` flattening of one cell entry. -/
def TT.flatten : TT → List Triple
  | .tri t => [t]
  | .sub l => TT.flattenList l

def TT.flattenList : List TT → List Triple
  | [] => []
  | x :: xs => TT.flatten x ++ TT.flattenList xs

end

/-- `MetagraphHelper.get_triples` on a closure cell. -/
def getTriples (l : List TT) : List Triple := TT.flattenList l

/-- Append edges to an accumulator, skipping entries already present
(Python membership, which for structurally distinct edges agrees with
structural equality). -/
def dedupAppend (acc : List Edge) (es : List Edge) : List Edge :=
  es.foldl (fun acc e => if acc.contains e then acc else acc ++ [e]) acc

/-- `MetagraphHelper.get_edge_list` on a flat list of edges. -/
def getEdgeList (es : List Edge) : List Edge := dedupAppend [] es

mutual

/-- `MetagraphHelper.get_edges_from_triple_list` on one closure cell entry:
a bare triple yields its edges component, a nested list is flattened with
de-duplication. -/
def getEdgesFromTT : TT → List Edge
  | .tri t => t.edges.toList
  | .sub l => getEdgesFromTTAux l []

def getEdgesFromTTAux : List TT → List Edge → List Edge
  | [], acc => acc
  | x :: xs, acc => getEdgesFromTTAux xs (dedupAppend acc (getEdgesFromTT x))

end

/-- `Metagraph.incidence_matrix`: `|X|` rows, `|edges|` columns; `-1` when
the element is in the edge's invertex, otherwise `+1` when in its outvertex,
otherwise absent. -/
def incidenceMatrix (mg : MG) : List (List (Option Int)) :=
  (List.range mg.generating_set.length).map (fun i =>
    let xi := mg.generating_set.getD i ""
    (List.range mg.edges.length).map (fun j =>
      let ej := mg.edges.getD j edgeDefault
      if xi ∈ ej.invertex then some (-1)
      else if xi ∈ ej.outvertex then some 1
      else none))

/-- One cell of the incidence matrix. -/
def incCell (mg : MG) (i j : Nat) : Option Int :=
  ((incidenceMatrix mg).getD i []).getD j none

/-- A computable enumeration of a vertex set, used where the source iterates
a Python set whose downstream use is order-insensitive (the iterated
elements are only accumulated into further sets). -/
def ESet.enum (s : ESet) : List Elem := s.sort (· ≤ ·)

/-- A metapath (library.py `Metapath`): the source and target sets are
stored as passed (in enumeration order) together with the edge list. -/
structure Metapath where
  source : List Elem
  target : List Elem
  edge_list : List Edge
  deriving DecidableEq

/-- `itertools.combinations(l, r)` in enumeration order. -/
def combinations {α : Type} : Nat → List α → List (List α)
  | 0, _ => [[]]
  | _ + 1, [] => []
  | r + 1, x :: xs =>
      (combinations r xs).map (fun c => x :: c) ++ combinations (r + 1) xs

/-- `sum(map(lambda r: list(combinations(l, r)), range(1, len(l)+1)), [])`. -/
def allCombinations {α : Type} (l : List α) : List (List α) :=
  (List.range' 1 l.length).flatMap (fun r => combinations r l)

/-- The distinct generating-set indices of the given elements, in first
occurrence order (`all_applicable_input_rows` / `..._output_cols`). -/
def dedupIdx (gen : List Elem) (xs : List Elem) : List Nat :=
  xs.foldl (fun acc x =>
    let idx := gen.indexOf x
    if acc.contains idx then acc else acc ++ [idx]) []

/-- `Metagraph.is_metapath`: recompute `A*`, collect the candidate edges
witnessed in the source×target cells plus all inputs and outputs of the
candidate edges, then test the witnessed-edges, net-input and
target-coverage conditions. -/
def isMetapath (mg : MG) (cand : Metapath) : Bool :=
  let aStar := getClosure mg
  let gen := mg.generating_set
  let rows := dedupIdx gen cand.source
  let cols := dedupIdx gen cand.target
  let st := rows.foldl (fun st i =>
    cols.foldl (fun (st : List Edge × List Elem × List Elem) j =>
      match (aStar.getD i []).getD j none with
      | none => st
      | some cell =>
        cand.edge_list.foldl (fun (st : List Edge × List Elem × List Elem) edge =>
          let v := cell.foldl (fun v tt =>
            let edges1 := getEdgesFromTT tt
            if isEdgeInListL edge edges1 && !v.contains edge then v ++ [edge]
            else v) st.1
          let ain := (ESet.enum edge.invertex).foldl (fun ain x =>
            if ain.contains x then ain else ain ++ [x]) st.2.1
          let aout := (ESet.enum edge.outvertex).foldl (fun aout x =>
            if aout.contains x then aout else aout ++ [x]) st.2.2
          (v, ain, aout)) st) st)
    (([] : List Edge), ([] : List Elem), ([] : List Elem))
  if !(cand.edge_list.all (fun e => st.1.contains e)) then false
  else
    decide ((st.2.1.toFinset \ st.2.2.toFinset) ⊆ cand.source.toFinset) &&
    decide (cand.target.toFinset ⊆ st.2.2.toFinset)

/-- The accumulator of `get_all_metapaths_from`'s target scan: the mixed
list `cumulative_output` holds both elements and cooutput sets (Python
compares them with `==`, under which an element never equals a set). -/
abbrev CumOut := Elem ⊕ ESet

/-- The per-source-row loop of `Metagraph.get_all_metapaths_from`: scan the
target elements, accumulate cooutputs and edges from the closure cells, and
return `None` for the whole query as soon as one row reaches no target.
Rows whose cumulative output covers the target contribute their edges. -/
def gampRows (aStar : AccMat) (gen target : List Elem) :
    List Nat → List Edge → Option (List Edge)
  | [], acc => some acc
  | i :: rest, acc =>
    let st := target.foldl (fun (st : Bool × List CumOut × List Edge) xj =>
      let j := gen.indexOf xj
      match (aStar.getD i []).getD j none with
      | none => st
      | some cell =>
        let cum := st.2.1 ++ [Sum.inl xj]
        let p := (getTriples cell).foldl (fun (p : List CumOut × List Edge) t =>
          let cum := match t.cooutputs with
            | some o => if p.1.contains (Sum.inr o) then p.1 else p.1 ++ [Sum.inr o]
            | none => p.1
          let edges := getEdgeList t.edges.toList
          let ce := edges.foldl (fun ce e =>
            if ce.contains e then ce else ce ++ [e]) p.2
          (cum, ce)) (cum, st.2.2)
        (true, p.1, p.2)) (false, [], [])
    if !st.1 then none
    else
      let isSubset := target.all (fun x => st.2.1.contains (Sum.inl x))
      let acc := if isSubset then
          st.2.2.foldl (fun acc e => if acc.contains e then acc else acc ++ [e]) acc
        else acc
      gampRows aStar gen target rest acc

/-- `Metagraph.get_all_metapaths_from`: validates the arguments, populates
the closure cache when absent (and only then), gathers candidate edges per
source row, and filters every non-empty combination through `is_metapath`
(the source's `len(path) <= len(metapaths)` guard is always true). -/
def getAllMetapathsFrom (mg : MG) (source target : List Elem) :
    Except PyError (Option (List Metapath) × MG) :=
  if source = [] then .error (mgErr "source" "value_null")
  else if target = [] then .error (mgErr "target" "value_null")
  else if ¬ (source.toFinset ∩ mg.generating_set.toFinset = source.toFinset) then
    .error (mgErr "source" "not_a_subset")
  else if ¬ (target.toFinset ∩ mg.generating_set.toFinset = target.toFinset) then
    .error (mgErr "target" "not_a_subset")
  else
    let mg := if mg.a_star.isNone then { mg with a_star := some (getClosure mg) }
              else mg
    let aStar := mg.a_star.getD []
    let gen := mg.generating_set
    let rows := dedupIdx gen source
    match gampRows aStar gen target rows [] with
    | none => .ok (none, mg)
    | some mpEdges =>
        let valid := (allCombinations mpEdges).foldl (fun acc path =>
          let mp : Metapath := ⟨source, target, path⟩
          if isMetapath mg mp then acc ++ [mp] else acc) []
        .ok (some valid, mg)

/-- `Metagraph.is_cutset`: drop the edges matching the given list by
(invertex, outvertex) pair, rebuild a metagraph over the same generating
set, and test whether any metapath from source to target remains.  The
`None` argument guards are kept via `Option` arguments. -/
def isCutset (mg : MG) (edge_list : Option (List Edge))
    (source target : Option (List Elem)) : Except PyError Bool :=
  match edge_list with
  | none => .error (mgErr "edges" "value_null")
  | some el =>
    match source with
    | none => .error (mgErr "source" "value_null")
    | some s =>
      match target with
      | none => .error (mgErr "target" "value_null")
      | some t =>
        let modified := mg.edges.filter (fun e1 =>
          !(el.any (fun e2 =>
            decide (e1.invertex = e2.invertex) &&
            decide (e1.outvertex = e2.outvertex))))
        match metagraphInit mg.generating_set with
        | .error err => .error err
        | .ok mg2 =>
          match addEdgesFrom mg2 modified with
          | .error err => .error err
          | .ok mg2 =>
            match getAllMetapathsFrom mg2 s t with
            | .error err => .error err
            | .ok (paths, _) =>
              match paths with
              | some l => if l.length > 0 then .ok false else .ok true
              | none => .ok true

/-- `Metagraph.is_bridge`: null guards (under different argument names), an
`isinstance(edge_list, list)` test that always holds for a present list,
then delegation to `is_cutset`. -/
def isBridge (mg : MG) (edge_list : Option (List Edge))
    (source target : Option (List Elem)) : Except PyError Bool :=
  match edge_list with
  | none => .error (mgErr "edge_list" "value_null")
  | some _ =>
    match source with
    | none => .error (mgErr "source" "value_null")
    | some _ =>
      match target with
      | none => .error (mgErr "target" "value_null")
      | some _ => isCutset mg edge_list source target

/-- Conditional metagraph state (library.py `ConditionalMetagraph`): the
variables and propositions lists fix the enumeration order of the two sets;
`generating_set` is the stored enumeration of their union.  The unused
`self.mg` cache of `get_all_metapaths_from` (not exercised here) is
omitted. -/
structure CM where
  variables_set : List Elem
  propositions_set : List Elem
  nodes : List ESet
  edges : List Edge
  generating_set : List Elem
  a_star : Option AccMat
  deriving DecidableEq

/-- `ConditionalMetagraph.__init__`: rejects overlapping variables and
propositions.  The `resources` table lacks the key `partition_invalid`, so
this branch raises Python `KeyError`, not a `MetagraphException`.  The
superclass constructor then rejects an empty generating set. -/
def cmInit (vs ps : List Elem) : Except PyError CM :=
  if ¬ (vs.toFinset ∩ ps.toFinset = ∅) then
    .error (mgErr "variables_and_propositions" "partition_invalid")
  else
    let gen := vs ++ ps
    if gen = [] then .error (mgErr "generator_set" "value_null")
    else .ok ⟨vs, ps, [], [], gen, none⟩

/-- The validation pass of `ConditionalMetagraph.add_edges_from`: an edge
whose outvertex holds a proposition alongside any other element is rejected
(`value_invalid` is another key missing from the resources table). -/
def cmValidateEdges (cm : CM) : List Edge → Except PyError Unit
  | [] => .ok ()
  | e :: rest =>
    if e.invertex ∪ e.outvertex = ∅ then .error (mgErr "edge" "value_null")
    else if cm.propositions_set.any (fun p =>
        decide (p ∈ e.outvertex) && decide (1 < e.outvertex.card)) then
      .error (mgErr "edge" "value_invalid")
    else cmValidateEdges cm rest

/-- The insertion pass of `ConditionalMetagraph.add_edges_from` (node
bookkeeping via the `Node` constructor, duplicate edges skipped by list
membership). -/
def cmInsertEdges : CM → List Edge → Except PyError CM
  | cm, [] => .ok cm
  | cm, e :: rest =>
    if e.invertex = ∅ then .error (mgErr "element_set" "value_null")
    else if e.outvertex = ∅ then .error (mgErr "element_set" "value_null")
    else
      let nodes1 := if isNodeInList e.invertex cm.nodes then cm.nodes
                    else cm.nodes ++ [e.invertex]
      let nodes2 := if isNodeInList e.outvertex nodes1 then nodes1
                    else nodes1 ++ [e.outvertex]
      let edges1 := if cm.edges.contains e then cm.edges else cm.edges ++ [e]
      cmInsertEdges { cm with nodes := nodes2, edges := edges1 } rest

/-- `ConditionalMetagraph.add_edges_from`. -/
def cmAddEdgesFrom (cm : CM) (edge_list : List Edge) : Except PyError CM :=
  if edge_list = [] then .error (mgErr "edge_list" "value_null")
  else match cmValidateEdges cm edge_list with
    | .error err => .error err
    | .ok () => cmInsertEdges cm edge_list

/-- The edge-removal scan of `ConditionalMetagraph.get_context`.  For each
true proposition found in a vertex the source evaluates
`edge.invertex.difference({proposition})` — `set.difference` returns a new
set and the result is discarded, so the vertex is unchanged — and then tests
the unchanged vertex for emptiness, which never holds for a constructible
edge.  Edges mentioning a false proposition anywhere are collected for
removal. -/
def getContextRemovals (edges : List Edge) (tpl fpl : List Elem) : List Edge :=
  edges.foldl (fun rem edge =>
    let rem := tpl.foldl (fun rem p =>
      let rem :=
        if p ∈ edge.invertex then
          if edge.invertex = ∅ ∧ ¬ rem.contains edge then rem ++ [edge] else rem
        else rem
      if p ∈ edge.outvertex then
        if edge.outvertex = ∅ ∧ ¬ rem.contains edge then rem ++ [edge] else rem
      else rem) rem
    fpl.foldl (fun rem p =>
      if (p ∈ edge.invertex ∨ p ∈ edge.outvertex) ∧ ¬ rem.contains edge then
        rem ++ [edge]
      else rem) rem) []

/-- `ConditionalMetagraph.get_context`: null/empty guards on both
proposition sets, range checks against `X_p` (whose failure key
`range_invalid` is missing from the resources table), the removal scan, and
reconstruction of a fresh conditional metagraph from the surviving edges. -/
def getContext (cm : CM) (tps fps : Option (List Elem)) : Except PyError CM :=
  match tps with
  | none => .error (mgErr "true_propositions" "value_null")
  | some tpl =>
    if tpl = [] then .error (mgErr "true_propositions" "value_null")
    else match fps with
    | none => .error (mgErr "false_propositions" "value_null")
    | some fpl =>
      if fpl = [] then .error (mgErr "false_propositions" "value_null")
      else if tpl.any (fun p => ¬ cm.propositions_set.contains p) then
        .error (mgErr "true_propositions" "range_invalid")
      else if fpl.any (fun p => ¬ cm.propositions_set.contains p) then
        .error (mgErr "false_propositions" "range_invalid")
      else
        let removals := getContextRemovals cm.edges tpl fpl
        let edgesCopy := cm.edges.filter (fun e => ¬ removals.contains e)
        match cmInit cm.variables_set cm.propositions_set with
        | .error err => .error err
        | .ok context => cmAddEdgesFrom context edgesCopy

/-- The expression tokeniser shared by the connectivity predicates: `.`,
`|`, `!` become spaces, `(` is dropped (the source also computes a copy with
`)` removed but discards that result), and splitting on spaces with empty
items ignored leaves the maximal space-free runs. -/
def pyTokenize (s : String) : List String :=
  let cs := s.toList.map (fun c => if c = '.' ∨ c = '|' ∨ c = '!' then ' ' else c)
  let cs := cs.filter (fun c => c ≠ '(')
  ((cs.splitOn ' ').map (fun l => String.mk l)).filter (fun t => t ≠ "")

/-- The expression validation loop of `is_non_redundant`: every token of
every expression must be a proposition. -/
def validateExprs (cm : CM) : List String → Except PyError Unit
  | [] => .ok ()
  | s :: rest =>
    if (pyTokenize s).any (fun t => ¬ cm.propositions_set.contains t) then
      .error (mgErr "logical_expression" "arguments_invalid")
    else validateExprs cm rest

/-- The interpretation-to-proposition-lists conversion of the connectivity
predicates: truthy pairs append to the true list, other pairs whose
proposition is not already in the true list append to the false list (the
false list is never consulted for duplicates). -/
def interpStep (acc : List Elem × List Elem) (pb : Elem × Bool) :
    List Elem × List Elem :=
  if pb.2 ∧ ¬ acc.1.contains pb.1 then (acc.1 ++ [pb.1], acc.2)
  else if ¬ pb.2 ∧ ¬ acc.1.contains pb.1 then (acc.1, acc.2 ++ [pb.1])
  else acc

def interpTrue (interp : List (Elem × Bool)) : List Elem :=
  (interp.foldl interpStep ([], [])).1

def interpFalse (interp : List (Elem × Bool)) : List Elem :=
  (interp.foldl interpStep ([], [])).2

/-- The conversion loop with its per-pair membership guard: a pair whose
proposition is outside `X_p` raises before any later pair is examined. -/
def interpProps (cm : CM) : List (Elem × Bool) → (List Elem × List Elem) →
    Except PyError (List Elem × List Elem)
  | [], acc => .ok acc
  | pb :: rest, acc =>
    if ¬ cm.propositions_set.contains pb.1 then
      .error (mgErr "interpretations" "arguments_invalid")
    else interpProps cm rest (interpStep acc pb)

/-- The per-variable redundancy test on a context: some variable is the
outvertex of more than one context edge. -/
def redundancyCheck (cm ctx : CM) : Bool :=
  cm.variables_set.any (fun x =>
    1 < (ctx.edges.filter (fun e => decide (x ∈ e.outvertex))).length)

/-- `ConditionalMetagraph.is_non_redundant`: null guards, expression
validation, then the interpretation loop — whose body ends in `return True`,
so only the first interpretation is ever examined. -/
def isNonRedundant (cm : CM) (logical_expressions : List String)
    (interpretations : List (List (Elem × Bool))) : Except PyError Bool :=
  if logical_expressions = [] then
    .error (mgErr "logical_expressions" "value_null")
  else if interpretations = [] then
    .error (mgErr "interpretations" "value_null")
  else match validateExprs cm logical_expressions with
    | .error err => .error err
    | .ok () =>
      match interpretations with
      | [] => .error (mgErr "interpretations" "value_null")
      | i0 :: _ =>
        match interpProps cm i0 ([], []) with
        | .error err => .error err
        | .ok (tprops, fprops) =>
          match getContext cm (some tprops) (some fprops) with
          | .error err => .error err
          | .ok context => .ok (!redundancyCheck cm context)

/-! Concrete metagraphs and conditional metagraphs used to instantiate the
theorems below. -/

def e_uv : Edge := ⟨{"u"}, {"v"}, none, none⟩

def e_vw : Edge := ⟨{"v"}, {"w"}, none, none⟩

/-- A one-element metagraph with the self-feedback edge `{a} → {a}`. -/
def selfLoopMG : MG := ⟨["a"], [], [⟨{"a"}, {"a"}, none, none⟩], none⟩

def c6mg : MG := ⟨["a"], [], [], none⟩

def c6e : Edge := ⟨{"b"}, {"c"}, none, none⟩

def c6mgAfter : MG := ⟨["a"], [{"b"}, {"c"}], [c6e], none⟩

def c7eab : Edge := ⟨{"a"}, {"b"}, none, none⟩

def c7eba : Edge := ⟨{"b"}, {"a"}, none, none⟩

def c7mg0 : MG := ⟨["a", "b"], [], [c7eab], none⟩

/-- `c7mg0` after its first metapath query: the closure cache is populated. -/
def c7mg1 : MG := ⟨["a", "b"], [], [c7eab], some (getClosure c7mg0)⟩

/-- `c7mg1` after `add_edge({b} → {a})`: the cache field is untouched. -/
def c7mg2 : MG :=
  ⟨["a", "b"], [{"b"}, {"a"}], [c7eab, c7eba], some (getClosure c7mg0)⟩

def e5 : Edge := ⟨{"v0", "p1"}, {"v3"}, none, none⟩

/-- The conditional metagraph ⟨X_v = {v0, v3}, X_p = {p1, p2}⟩ holding the
single edge `{v0, p1} → {v3}`. -/
def cm5base : CM := ⟨["v0", "v3"], ["p1", "p2"], [], [], ["v0", "v3", "p1", "p2"], none⟩

def cm5 : CM :=
  ⟨["v0", "v3"], ["p1", "p2"], [{"v0", "p1"}, {"v3"}], [e5],
   ["v0", "v3", "p1", "p2"], none⟩

def c8eA : Edge := ⟨{"p1"}, {"v3"}, none, none⟩

def c8eB : Edge := ⟨{"p2"}, {"v3"}, none, none⟩

def c8eD : Edge := ⟨{"p1"}, {"v0"}, none, none⟩

def c8eE : Edge := ⟨{"v0", "p2"}, {"v3"}, none, none⟩

/-- The conditional metagraph ⟨X_v = {v0, v3}, X_p = {p1, p2}⟩ holding the
four edges `{p1}→{v3}`, `{p2}→{v3}`, `{p1}→{v0}`, `{v0,p2}→{v3}`. -/
def c8cm : CM :=
  ⟨["v0", "v3"], ["p1", "p2"],
   [{"p1"}, {"v3"}, {"p2"}, {"v0"}, {"v0", "p2"}],
   [c8eA, c8eB, c8eD, c8eE], ["v0", "v3", "p1", "p2"], none⟩

/-- Interpretation p1 ↦ true, p2 ↦ false. -/
def c8i1 : List (Elem × Bool) := [("p1", true), ("p2", false)]

/-- Interpretation p1 ↦ false, p2 ↦ true. -/
def c8i2 : List (Elem × Bool) := [("p1", false), ("p2", true)]

/-- The context of `c8cm` under interpretation `c8i1`. -/
def c8ctx1 : CM :=
  ⟨["v0", "v3"], ["p1", "p2"], [{"p1"}, {"v3"}, {"v0"}], [c8eA, c8eD],
   ["v0", "v3", "p1", "p2"], none⟩

/-- A small conditional metagraph for witness instantiation. -/
def cmW : CM := ⟨["v"], ["p"], [], [], ["v", "p"], none⟩

/-! Helper lemmas shared by the claim theorems. -/

theorem mgErr_value_null (arg : String) :
    mgErr arg "value_null" =
      .metagraphException arg "value cannot be null or empty" := rfl

theorem getD_map_range {α : Type} (n i : Nat) (f : Nat → α) (d : α)
    (h : i < n) : ((List.range n).map f).getD i d = f i := by
  simp [List.getD_eq_getElem?_getD, List.getElem?_map, List.getElem?_range h]

/-! Claim theorems. -/

/-- C1 counterexample: for `R1 = ({a}, absent, [e_uv])`,
`R2 = (absent, absent, [e_vw])` and `(x_i, x_j, x_k) = (a, b, c)` the product
has coinputs present-but-empty (where the claim demands an absent value once
the difference leaves no elements) and edge collection `[e_vw]` (where the
claim demands the de-duplicated concatenation `[e_uv, e_vw]`). -/
theorem multiply_triples_claim_counterexample :
    multiplyTriples ⟨some {"a"}, none, .multi [e_uv]⟩
        ⟨none, none, .multi [e_vw]⟩ "a" "b" "c"
      = ⟨some ∅, some {"c"}, .multi [e_vw]⟩ ∧
    (⟨some ∅, some {"c"}, .multi [e_vw]⟩ : Triple)
      ≠ ⟨none, some {"c"}, .multi [e_uv, e_vw]⟩ := by
  decide

/-- C1 (amended): the product triple of `multiply_triples(R1, R2, x_i, x_j,
x_k)` has coinputs absent exactly when both operand coinputs are absent and
otherwise equal to `(CI1 ∪ CI2) \ ({x_i} ∪ CO1)` even when that set is
empty; cooutputs always present and equal to `(CO1 ∪ CO2 ∪ {x_k}) \ {x_j}`;
and edges equal to `g2` alone when `g2` is a list, otherwise `g1`'s edges
followed by `g2`'s single edge when not already present. -/
theorem multiply_triples_amended_spec (t1 t2 : Triple) (xi xj xk : Elem) :
    (multiplyTriples t1 t2 xi xj xk).coinputs =
      (if t1.coinputs = none ∧ t2.coinputs = none then none
       else some (((t1.coinputs.getD ∅) ∪ (t2.coinputs.getD ∅)) \
                  ({xi} ∪ (t1.cooutputs.getD ∅)))) ∧
    (multiplyTriples t1 t2 xi xj xk).cooutputs =
      some ((((t1.cooutputs.getD ∅) ∪ (t2.cooutputs.getD ∅)) ∪ {xk}) \ {xj}) ∧
    (multiplyTriples t1 t2 xi xj xk).edges =
      .multi (match t2.edges with
        | .multi l2 => l2
        | .single e2 =>
            if t1.edges.toList.contains e2 then t1.edges.toList
            else t1.edges.toList ++ [e2]) := by
  obtain ⟨c1, o1, g1⟩ := t1
  obtain ⟨c2, o2, g2⟩ := t2
  refine ⟨?_, ?_, ?_⟩
  · cases c1 <;> cases c2 <;> cases o1 <;>
      simp [multiplyTriples, Finset.insert_eq]
  · cases o1 <;> cases o2 <;> simp [multiplyTriples]
  · cases g2 <;> simp [multiplyTriples]

/-- C3 counterexample: in the one-element metagraph with the self-feedback
edge `{a} → {a}`, element `a` lies in both the invertex and the outvertex of
the edge, and the incidence cell is `−1`, not the `+1` the claim states. -/
theorem incidence_matrix_self_loop_counterexample :
    "a" ∈ (⟨{"a"}, {"a"}, none, none⟩ : Edge).invertex ∧
    "a" ∈ (⟨{"a"}, {"a"}, none, none⟩ : Edge).outvertex ∧
    incidenceMatrix selfLoopMG = [[some (-1)]] ∧
    (some (-1) : Option Int) ≠ some 1 := by
  decide

/-- C3 (amended): `incidence_matrix` has `|X|` rows of `|E|` columns each;
cell `(i, j)` is `−1` iff `x_i` is in edge `e_j`'s invertex (also when it is
in both vertex sets: the invertex branch wins), `+1` iff `x_i` is in the
outvertex but not the invertex, and absent iff it is in neither. -/
theorem incidence_matrix_amended_spec (mg : MG) (i j : Nat)
    (hi : i < mg.generating_set.length) (hj : j < mg.edges.length) :
    (incidenceMatrix mg).length = mg.generating_set.length ∧
    ((incidenceMatrix mg).getD i []).length = mg.edges.length ∧
    (incCell mg i j = some (-1) ↔
      mg.generating_set.getD i "" ∈ (mg.edges.getD j edgeDefault).invertex) ∧
    (incCell mg i j = some 1 ↔
      (mg.generating_set.getD i "" ∉ (mg.edges.getD j edgeDefault).invertex ∧
       mg.generating_set.getD i "" ∈ (mg.edges.getD j edgeDefault).outvertex)) ∧
    (incCell mg i j = none ↔
      (mg.generating_set.getD i "" ∉ (mg.edges.getD j edgeDefault).invertex ∧
       mg.generating_set.getD i "" ∉ (mg.edges.getD j edgeDefault).outvertex)) := by
  have hcell : incCell mg i j =
      (if mg.generating_set.getD i "" ∈ (mg.edges.getD j edgeDefault).invertex
       then some (-1)
       else if mg.generating_set.getD i "" ∈ (mg.edges.getD j edgeDefault).outvertex
       then some 1 else none) := by
    unfold incCell incidenceMatrix
    rw [getD_map_range _ _ _ _ hi, getD_map_range _ _ _ _ hj]
  set xi := mg.generating_set.getD i "" with hxi
  set ej := mg.edges.getD j edgeDefault with hej
  refine ⟨?_, ?_, ?_, ?_, ?_⟩
  · simp [incidenceMatrix]
  · unfold incidenceMatrix
    rw [getD_map_range _ _ _ _ hi]
    simp
  · rw [hcell]
    by_cases h1 : xi ∈ ej.invertex <;> by_cases h2 : xi ∈ ej.outvertex <;>
      simp [h1, h2]
  · rw [hcell]
    by_cases h1 : xi ∈ ej.invertex <;> by_cases h2 : xi ∈ ej.outvertex <;>
      simp [h1, h2]
  · rw [hcell]
    by_cases h1 : xi ∈ ej.invertex <;> by_cases h2 : xi ∈ ej.outvertex <;>
      simp [h1, h2]

/-- C3 witness: the amended incidence characterisation instantiated on the
self-feedback metagraph at cell (0, 0). -/
theorem incidence_matrix_amended_spec_witness :
    (incidenceMatrix selfLoopMG).length = selfLoopMG.generating_set.length ∧
    ((incidenceMatrix selfLoopMG).getD 0 []).length = selfLoopMG.edges.length ∧
    (incCell selfLoopMG 0 0 = some (-1) ↔
      selfLoopMG.generating_set.getD 0 "" ∈
        (selfLoopMG.edges.getD 0 edgeDefault).invertex) ∧
    (incCell selfLoopMG 0 0 = some 1 ↔
      (selfLoopMG.generating_set.getD 0 "" ∉
        (selfLoopMG.edges.getD 0 edgeDefault).invertex ∧
       selfLoopMG.generating_set.getD 0 "" ∈
        (selfLoopMG.edges.getD 0 edgeDefault).outvertex)) ∧
    (incCell selfLoopMG 0 0 = none ↔
      (selfLoopMG.generating_set.getD 0 "" ∉
        (selfLoopMG.edges.getD 0 edgeDefault).invertex ∧
       selfLoopMG.generating_set.getD 0 "" ∉
        (selfLoopMG.edges.getD 0 edgeDefault).outvertex)) :=
  incidence_matrix_amended_spec selfLoopMG 0 0 (by decide) (by decide)

/-- C4: for every metagraph, every (present) edge list and every source and
target set, `is_bridge` returns exactly what `is_cutset` returns — the body
of `is_bridge`, after its null and type guards, delegates to `is_cutset`. -/
theorem is_bridge_eq_is_cutset (mg : MG) (el : List Edge)
    (s t : List Elem) :
    isBridge mg (some el) (some s) (some t) =
      isCutset mg (some el) (some s) (some t) := rfl

/-- C9: constructing a conditional metagraph from variable and proposition
sets with a non-empty intersection raises Python `KeyError`, because the
`resources` table of properties.py does not define the key
`partition_invalid` that the raising line looks up — not the
`MetagraphException` with a resolved message that the claim describes. -/
theorem cm_partition_overlap_raises_keyerror (vs ps : List Elem)
    (h : (vs.toFinset ∩ ps.toFinset).Nonempty) :
    cmInit vs ps = .error (.keyError "partition_invalid") := by
  have h2 : ¬ (vs.toFinset ∩ ps.toFinset = ∅) :=
    Finset.nonempty_iff_ne_empty.mp h
  unfold cmInit
  rw [if_pos h2]
  rfl

/-- C9 witness: the overlapping pair `({a}, {a})`. -/
theorem cm_partition_overlap_raises_keyerror_witness :
    cmInit ["a"] ["a"] = .error (.keyError "partition_invalid") :=
  cm_partition_overlap_raises_keyerror ["a"] ["a"] (by decide)

/-- C10: `get_context` raises a `MetagraphException` (with the resolved
`value_null` message, under the argument name of whichever proposition set
is missing) whenever the true or the false proposition set is `None` or
empty; the all-true and all-false contexts are therefore unreachable. -/
theorem get_context_null_props_raise (cm : CM) (tps fps : Option (List Elem))
    (h : tps = none ∨ tps = some [] ∨ fps = none ∨ fps = some []) :
    getContext cm tps fps =
      .error (.metagraphException "true_propositions"
        "value cannot be null or empty") ∨
    getContext cm tps fps =
      .error (.metagraphException "false_propositions"
        "value cannot be null or empty") := by
  rcases h with h | h | h | h
  · subst h; left; rfl
  · subst h; left; rfl
  · subst h
    cases tps with
    | none => left; rfl
    | some tpl =>
      by_cases ht : tpl = []
      · subst ht; left; rfl
      · right
        simp [getContext, ht, mgErr_value_null]
  · subst h
    cases tps with
    | none => left; rfl
    | some tpl =>
      by_cases ht : tpl = []
      · subst ht; left; rfl
      · right
        simp [getContext, ht, mgErr_value_null]

/-- C10 witness: a `None` true-proposition set on a concrete conditional
metagraph. -/
theorem get_context_null_props_raise_witness :
    getContext cmW none (some ["p"]) =
      .error (.metagraphException "true_propositions"
        "value cannot be null or empty") ∨
    getContext cmW none (some ["p"]) =
      .error (.metagraphException "false_propositions"
        "value cannot be null or empty") :=
  get_context_null_props_raise cmW none (some ["p"]) (Or.inl rfl)

theorem addEdge_a_star (mg : MG) (e : Edge) (s : MG)
    (h : addEdge mg e = .ok s) : s.a_star = mg.a_star := by
  unfold addEdge at h
  split at h
  · cases h
  · split at h
    · cases h
    · cases h; rfl

theorem addMetagraphLoop_a_star (es : List Edge) : ∀ (mg s : MG),
    addMetagraphLoop mg es = .ok s → s.a_star = mg.a_star := by
  induction es with
  | nil => intro mg s h; cases h; rfl
  | cons e rest ih =>
    intro mg s h
    unfold addMetagraphLoop at h
    split at h
    · exact ih mg s h
    · cases he : addEdge mg e with
      | error err => rw [he] at h; cases h
      | ok mgNext =>
          rw [he] at h
          rw [ih mgNext s h, addEdge_a_star mg e mgNext he]

theorem multiplyMetagraph_a_star (mg mg2 s : MG)
    (h : multiplyMetagraph mg mg2 = .ok s) : s.a_star = mg.a_star := by
  unfold multiplyMetagraph at h
  split at h
  · cases h
  · split at h
    · cases h
    · simp only [] at h
      split at h
      · cases h
      · cases h; rfl

theorem addEdgesFromLoop_edges (es : List Edge) : ∀ (mg s : MG),
    addEdgesFromLoop mg es = .ok s → ∀ e2 ∈ s.edges, e2 ∈ mg.edges ∨ e2 ∈ es := by
  induction es with
  | nil => intro mg s h e2 hm; cases h; exact .inl hm
  | cons e rest ih =>
    intro mg s h e2 hm
    unfold addEdgesFromLoop at h
    split at h
    · cases h
    · split at h
      · cases h
      · have hsub := ih _ s h e2 hm
        rcases hsub with hin | hin
        · by_cases h3 : mg.edges.contains e
          · simp only [h3, if_true] at hin
            exact .inl hin
          · simp only [h3, Bool.false_eq_true, if_false] at hin
            rcases List.mem_append.mp hin with h4 | h4
            · exact .inl h4
            · simp only [List.mem_singleton] at h4
              exact .inr (by simp [h4])
        · exact .inr (List.mem_cons_of_mem _ hin)

/-- C6 counterexample: to the one-element metagraph over `X = {a}`,
`add_edge` happily adds the edge `{b} → {c}` drawing on elements outside
`X`, and the metagraph then holds an edge whose vertices are not contained
in the generating set. -/
theorem add_edge_out_of_range_counterexample :
    addEdge c6mg c6e = .ok c6mgAfter ∧
    c6e ∈ c6mgAfter.edges ∧
    ¬ (c6e.invertex ∪ c6e.outvertex ⊆ c6mg.generating_set.toFinset) := by
  decide

/-- C6 (amended): `add_edge` and `add_edges_from` perform no generating-set
membership check; what they guarantee is only that every edge held
afterwards was either already held or is one of the edges passed in —
an edge drawing on elements outside `X` is accepted and retained. -/
theorem add_edge_amended_spec (mg : MG) (e : Edge) (es : List Edge) :
    (∀ s, addEdge mg e = .ok s → ∀ e2 ∈ s.edges, e2 ∈ mg.edges ∨ e2 = e) ∧
    (∀ s, addEdgesFrom mg es = .ok s → ∀ e2 ∈ s.edges, e2 ∈ mg.edges ∨ e2 ∈ es) := by
  constructor
  · intro s h e2 hm
    unfold addEdge at h
    split at h
    · cases h
    · split at h
      · cases h
      · cases h
        by_cases h3 : isEdgeInListL e mg.edges
        · simp only [h3, if_true] at hm
          exact .inl hm
        · simp only [h3, Bool.false_eq_true, if_false] at hm
          rcases List.mem_append.mp hm with h4 | h4
          · exact .inl h4
          · simp only [List.mem_singleton] at h4
            exact .inr h4
  · intro s h e2 hm
    unfold addEdgesFrom at h
    split at h
    · cases h
    · exact addEdgesFromLoop_edges es mg s h e2 hm

/-- C6 witness: the amended statement instantiated on the out-of-range
addition of `{b} → {c}` to the metagraph over `{a}`. -/
theorem add_edge_amended_spec_witness :
    c6e ∈ c6mg.edges ∨ c6e = c6e :=
  (add_edge_amended_spec c6mg c6e []).1 c6mgAfter (by decide) c6e (by decide)

/-- C7 counterexample: the metapath query on `c7mg0` populates the closure
cache (`c7mg1`); `add_edge({b} → {a})` then leaves the cache untouched
(`c7mg2`), and the cached closure no longer equals the closure of the
current edge list — the invariant stated by the claim is violated by
`add_edge`. -/
theorem closure_cache_staleness_counterexample :
    (getAllMetapathsFrom c7mg0 ["a"] ["b"]).map (fun r => r.2) = .ok c7mg1 ∧
    c7mg1.a_star = some (getClosure c7mg1) ∧
    addEdge c7mg1 c7eba = .ok c7mg2 ∧
    c7mg2.a_star = c7mg1.a_star ∧
    c7mg2.a_star ≠ some (getClosure c7mg2) := by
  decide

/-- C7 (amended): no structural mutation invalidates the closure cache:
`add_edge`, `remove_edge`, `add_metagraph` and `multiply_metagraph` all
leave the `a_star` field exactly as it was, so a populated cache can go
stale with respect to the current edge list. -/
theorem mutations_preserve_closure_cache (mg mg2 : MG) (e : Edge) :
    (∀ s, addEdge mg e = .ok s → s.a_star = mg.a_star) ∧
    (removeEdge mg e).a_star = mg.a_star ∧
    (∀ s, addMetagraph mg mg2 = .ok s → s.a_star = mg.a_star) ∧
    (∀ s, multiplyMetagraph mg mg2 = .ok s → s.a_star = mg.a_star) := by
  refine ⟨fun s h => addEdge_a_star mg e s h, rfl, fun s h => ?_,
    fun s h => multiplyMetagraph_a_star mg mg2 s h⟩
  unfold addMetagraph at h
  split at h
  · cases h
  · exact addMetagraphLoop_a_star mg2.edges mg s h

/-- C7 witness: the cache-preservation statement instantiated on the
`add_edge` step of the staleness scenario. -/
theorem mutations_preserve_closure_cache_witness :
    c7mg2.a_star = c7mg1.a_star :=
  (mutations_preserve_closure_cache c7mg1 c7mg1 c7eba).1 c7mg2 (by decide)

theorem stopSearch_le (mg : MG) : ∀ (fuel k : Nat),
    stopSearch mg k fuel ≤ k + fuel := by
  intro fuel
  induction fuel with
  | zero => intro k; simp [stopSearch]
  | succ n ih =>
    intro k
    unfold stopSearch
    by_cases h : pyEqMat (aPow mg (k + 1)) (aPow mg k)
    · simp only [h, if_true]
      omega
    · simp only [h, Bool.false_eq_true, if_false]
      calc stopSearch mg (k + 1) n ≤ (k + 1) + n := ih (k + 1)
        _ = k + (n + 1) := by omega

theorem closureLoop_spec (mg : MG) : ∀ (fuel k : Nat),
    closureLoop (adjacencyMatrix mg) mg.generating_set fuel (aPow mg k)
      (aStarAcc mg k) = aStarAcc mg (stopSearch mg k fuel) := by
  intro fuel
  induction fuel with
  | zero => intro k; rfl
  | succ n ih =>
    intro k
    have hpow : multiplyAdjacencyMatrices (aPow mg k) (adjacencyMatrix mg)
        mg.generating_set = aPow mg (k + 1) := rfl
    have hacc : addAccMats (aStarAcc mg k) (flatToAcc (aPow mg (k + 1)))
        mg.generating_set.length = aStarAcc mg (k + 1) := rfl
    simp only [closureLoop, stopSearch]
    rw [hpow, hacc]
    by_cases h : pyEqMat (aPow mg (k + 1)) (aPow mg k)
    · simp only [h, if_true]
    · simp only [h, Bool.false_eq_true, if_false]
      exact ih (k + 1)

/-- C2 counterexample: in the one-element metagraph with the self-feedback
edge `{a} → {a}` (so `|X| = 1`), after the single permitted multiplication
`A¹ ≠ A⁰` — structurally (the power's triple has present-but-empty cooutputs
and a list-valued edge collection where the adjacency triple has absent
cooutputs and a bare edge), and also under the code's own comparison — so
the iteration does not reach a fixed point within `|X|` multiplications. -/
theorem get_closure_fixed_point_counterexample :
    selfLoopMG.generating_set.length = 1 ∧
    aPow selfLoopMG 1 ≠ aPow selfLoopMG 0 ∧
    pyEqMat (aPow selfLoopMG 1) (aPow selfLoopMG 0) = false := by
  decide

/-- C2 (amended): `get_closure` starts from `A⁰ = A`, `A* = A` and for
`n = 1 … |X|` computes `Aⁿ = Aⁿ⁻¹ · A`, accumulates `A* = A* + Aⁿ`, and
stops early only when `Aⁿ` and `Aⁿ⁻¹` compare equal under the code's
equality (triples compare by object identity, so only two entirely absent
matrices ever do); the returned matrix is the accumulated `A*` at that stop
index, and at most `|X|` multiplications are performed — but reaching a
fixed point within `|X|` multiplications is not guaranteed. -/
theorem get_closure_amended_spec (mg : MG) :
    getClosure mg = aStarAcc mg (stopIdx mg) ∧
    stopIdx mg ≤ mg.generating_set.length := by
  constructor
  · exact closureLoop_spec mg mg.generating_set.length 0
  · have h := stopSearch_le mg mg.generating_set.length 0
    simpa [stopIdx] using h

/-- C5 (code bug): on the conditional metagraph over `X_v = {v0, v3}`,
`X_p = {p1, p2}` holding the edge `{v0, p1} → {v3}`, the context for
`trueProps = {p1}`, `falseProps = {p2}` keeps that edge verbatim — the true
proposition `p1` is still in its invertex, because
`edge.invertex.difference({proposition})` returns a new set that the code
discards instead of updating the vertex. -/
theorem get_context_retains_true_props :
    cmInit ["v0", "v3"] ["p1", "p2"] = .ok cm5base ∧
    cmAddEdgesFrom cm5base [e5] = .ok cm5 ∧
    (getContext cm5 (some ["p1"]) (some ["p2"])).map (fun c => c.edges) =
      .ok [e5] ∧
    "p1" ∈ e5.invertex := by
  decide

theorem interpProps_ok (cm : CM) : ∀ (i : List (Elem × Bool))
    (acc p : List Elem × List Elem),
    interpProps cm i acc = .ok p → p = i.foldl interpStep acc := by
  intro i
  induction i with
  | nil => intro acc p h; cases h; rfl
  | cons pb rest ih =>
    intro acc p h
    unfold interpProps at h
    split at h
    · cases h
    · simpa using ih (interpStep acc pb) p h

/-- C8 counterexample: on the conditional metagraph `c8cm` with expressions
`["p1"]` and the two interpretations `p1↦true, p2↦false` and `p1↦false,
p2↦true`, `is_non_redundant` returns `True` — it returns from inside the
first loop iteration — although the second interpretation's context (true
set `{p2}`, false set `{p1}`, exactly as the code derives them) holds two
edges with variable `v3` in their outvertex, so the claim's right-hand side
is false. -/
theorem is_non_redundant_counterexample :
    cmAddEdgesFrom cm5base [c8eA, c8eB, c8eD, c8eE] = .ok c8cm ∧
    isNonRedundant c8cm ["p1"] [c8i1, c8i2] = .ok true ∧
    (interpTrue c8i2, interpFalse c8i2) = (["p2"], ["p1"]) ∧
    (getContext c8cm (some ["p2"]) (some ["p1"])).map
      (fun c => c.edges.filter (fun e => decide ("v3" ∈ e.outvertex))) =
      .ok [c8eB, c8eE] := by
  decide

/-- C8 (amended): `is_non_redundant` examines only the first interpretation
(its loop body ends in an unconditional return), and for that interpretation
the result is `true` iff every variable of `X_v` is in the outvertex of at
most one edge of that interpretation's context metagraph. -/
theorem is_non_redundant_amended_spec (cm : CM) (exprs : List String)
    (i0 : List (Elem × Bool)) (rest : List (List (Elem × Bool)))
    (ctx : CM) (b : Bool)
    (hctx : getContext cm (some (interpTrue i0)) (some (interpFalse i0)) =
      .ok ctx)
    (hrun : isNonRedundant cm exprs (i0 :: rest) = .ok b) :
    isNonRedundant cm exprs (i0 :: rest) = isNonRedundant cm exprs [i0] ∧
    (b = true ↔ ∀ x ∈ cm.variables_set,
      (ctx.edges.filter (fun e => decide (x ∈ e.outvertex))).length ≤ 1) := by
  refine ⟨rfl, ?_⟩
  unfold isNonRedundant at hrun
  split at hrun
  · cases hrun
  · split at hrun
    · cases hrun
    · cases hv : validateExprs cm exprs with
      | error err => rw [hv] at hrun; cases hrun
      | ok u =>
        rw [hv] at hrun
        cases u
        simp only [] at hrun
        cases hp : interpProps cm i0 ([], []) with
        | error err => rw [hp] at hrun; cases hrun
        | ok tf =>
          rw [hp] at hrun
          obtain ⟨t, f⟩ := tf
          have htf := interpProps_ok cm i0 ([], []) (t, f) hp
          have ht : t = interpTrue i0 := by
            rw [interpTrue, ← htf]
          have hf : f = interpFalse i0 := by
            rw [interpFalse, ← htf]
          rw [ht, hf] at hrun
          simp only [] at hrun
          rw [hctx] at hrun
          cases hrun
          simp only [Bool.not_eq_true', redundancyCheck]
          rw [List.any_eq_false]
          constructor
          · intro hall x hx
            have := hall x hx
            simpa [Nat.not_lt] using this
          · intro hall x hx
            have := hall x hx
            simpa [Nat.not_lt] using this

/-- C8 witness: the amended statement instantiated on `c8cm` with the single
interpretation `p1↦true, p2↦false`, whose context is `c8ctx1`. -/
theorem is_non_redundant_amended_spec_witness :
    true = true ↔ ∀ x ∈ c8cm.variables_set,
      (c8ctx1.edges.filter (fun e => decide (x ∈ e.outvertex))).length ≤ 1 :=
  (is_non_redundant_amended_spec c8cm ["p1"] c8i1 [] c8ctx1 true
    (by decide) (by decide)).2

end Mgtoolkit
